import Mathlib

/-!
Verification of the Segment entity lifecycle of `metabase.models.segment`
(file `src/metabase/models/segment.clj`).

The Clojure source is shallowly embedded: the database is an explicit record
(segment rows, user ids, revision rows, an id counter and a clock), Clojure's
dynamically typed arguments are a `CljVal` sum type so that the `:pre`
assertions (`integer?`, `string?`, `map?`) are real checks, and each store
operation returns its result together with the successor database and the
list of published events.  Assertion failures from `:pre` blocks are the
spec's `ValidationError`.
-/

/-- A dynamically typed Clojure value, as far as the Segment code inspects
one: the `:pre` assertions distinguish integers, strings and maps; every
other value (nil, keyword, boolean, ...) only ever fails those checks. -/
inductive CljVal where
  | vint : Int → CljVal
  | vstr : String → CljVal
  | vbool : Bool → CljVal
  | vkw : String → CljVal
  | vnil : CljVal
  | vmap : List (String × String) → CljVal
deriving DecidableEq, Repr

/-- Clojure `integer?`. -/
def CljVal.isInteger : CljVal → Bool
  | .vint _ => true
  | _ => false

/-- Clojure `string?`. -/
def CljVal.isString : CljVal → Bool
  | .vstr _ => true
  | _ => false

/-- Clojure `map?`. -/
def CljVal.isMap : CljVal → Bool
  | .vmap _ => true
  | _ => false

/-- One row of the `segment` table (logical columns of the entity). -/
structure SegmentRec where
  sid : Int
  table_id : Int
  creator_id : Int
  name : String
  description : CljVal
  definition : List (String × String)
  is_active : Bool
  created_at : Nat
  updated_at : Nat
deriving DecidableEq, Repr

/-- One row of the `revision` table, as far as `pre-cascade-delete` touches
it: `db/cascade-delete revision/Revision :model "Segment" :model_id id`. -/
structure RevisionRec where
  model : String
  model_id : Int
deriving DecidableEq, Repr

/-- The persistent state the Segment code reads and writes: segment rows,
the `User` rows that `:creator` hydration resolves against (only ids
matter here), revision rows, the id the next insert receives, and the
clock used for the `timestamped` columns. -/
structure DB where
  segments : List SegmentRec
  users : List Int
  revisions : List RevisionRec
  nextId : Int
  now : Nat
deriving DecidableEq, Repr

/-- An event published through `events/publish-event`, with the extra keys
the Segment code assoc's onto the payload. -/
inductive Event where
  | segmentCreate (segId : Int)
  | segmentUpdate (segId : Int) (actorId : Int) (revisionMessage : String)
  | segmentDelete (segId : Int) (actorId : Int)
deriving DecidableEq, Repr

/-- Errors of the spec's taxonomy.  `validationError` is a failed `:pre`
assertion; `operationNotPermitted` is the exception thrown by
`pre-cascade-delete` in production. -/
inductive SegErr where
  | validationError
  | permissionDenied
  | operationNotPermitted
deriving DecidableEq, Repr

deriving instance DecidableEq for Except

/-- Result of one store operation: the returned value or error, the
database after the operation, and the events published during it. -/
structure OpResult (α : Type) where
  res : Except SegErr α
  db : DB
  events : List Event
deriving DecidableEq, Repr

/-- A `SegmentInstance` after `(hydrate :creator)`: the row plus the
resolved creator reference.  `post-select` stores the creator as
`(delay (when creator_id (db/sel :one User :id creator_id)))`; hydration
forces it, yielding the creator's user when it exists and nil otherwise. -/
structure SegmentInstance where
  row : SegmentRec
  creator : Option Int
deriving DecidableEq, Repr

/-- `post-select` + `(hydrate :creator)` on one row. -/
def hydrateCreator (db : DB) (s : SegmentRec) : SegmentInstance :=
  { row := s, creator := if s.creator_id ∈ db.users then some s.creator_id else none }

/-- `create-segment [table-id name description creator-id definition]`:
`:pre` checks `integer? table-id`, `string? name`, `integer? creator-id`,
`map? definition`; then `db/ins` with `:is_active true` (the `timestamped`
entity sets both timestamps), publish `:segment-create`, hydrate
`:creator`. -/
def create_segment (db : DB) (table_id name description creator_id definition : CljVal) :
    OpResult SegmentInstance :=
  match table_id, name, creator_id, definition with
  | .vint tid, .vstr nm, .vint cid, .vmap df =>
      let row : SegmentRec :=
        { sid := db.nextId, table_id := tid, creator_id := cid, name := nm,
          description := description, definition := df, is_active := true,
          created_at := db.now, updated_at := db.now }
      let db2 : DB := { db with segments := db.segments ++ [row], nextId := db.nextId + 1 }
      ⟨.ok (hydrateCreator db2 row), db2, [.segmentCreate row.sid]⟩
  | _, _, _, _ => ⟨.error .validationError, db, []⟩

/-- `exists-segment? [id]`: true iff a `Segment` with that id exists and is
active. -/
def exists_segment (db : DB) (id : Int) : Bool :=
  db.segments.any (fun s => s.sid == id && s.is_active)

/-- `retrieve-segment [id]`: `db/sel :one Segment :id id` then
`(hydrate :creator)`; nil when no such row.  The `:pre [(integer? id)]`
check is the `Int` type of the argument. -/
def retrieve_segment (db : DB) (id : Int) : Option SegmentInstance :=
  (db.segments.find? (fun s => s.sid == id)).map (hydrateCreator db)

/-- The order relation of `(k/order :name :ASC)`. -/
def nameLE (a b : SegmentRec) : Prop := a.name ≤ b.name

instance : DecidableRel nameLE := fun a b => inferInstanceAs (Decidable (a.name ≤ b.name))

instance : IsTotal SegmentRec nameLE := ⟨fun a b => le_total a.name b.name⟩

instance : IsTrans SegmentRec nameLE := ⟨fun _ _ _ h1 h2 => le_trans h1 h2⟩

/-- `retrieve-segments [table-id state]`: for `:all` select by `table_id`
only, otherwise select by `table_id` and `:is_active (if (= :active state)
true false)`; ordered by `:name :ASC`; each row hydrated.  Keywords are
modelled by their name string. -/
def retrieve_segments_state (db : DB) (table_id : Int) (state : String) :
    List SegmentInstance :=
  let rows :=
    if state = "all" then
      db.segments.filter (fun s => s.table_id == table_id)
    else
      let active : Bool := if state = "active" then true else false
      db.segments.filter (fun s => s.table_id == table_id && s.is_active == active)
  (List.insertionSort nameLE rows).map (hydrateCreator db)

/-- `retrieve-segments [table-id]`: the one-argument arity defaults the
state to `:active`. -/
def retrieve_segments (db : DB) (table_id : Int) : List SegmentInstance :=
  retrieve_segments_state db table_id "active"

/-- `update-segment [{:keys [id name description definition
revision_message]} user-id]`: `:pre` checks `integer? id`, `string? name`,
`map? definition`, `integer? user-id`, `string? revision_message`; then
`db/upd` of `:name`, `:description`, `:definition` (the `timestamped`
entity also refreshes `updated_at`), re-fetch via `retrieve-segment`,
publish `:segment-update` carrying `:actor_id` and `:revision_message`,
return the re-fetched segment. -/
def update_segment (db : DB)
    (id name description definition revision_message user_id : CljVal) :
    OpResult (Option SegmentInstance) :=
  match id, name, definition, user_id, revision_message with
  | .vint i, .vstr nm, .vmap df, .vint uid, .vstr rmsg =>
      let db2 : DB :=
        { db with segments := db.segments.map (fun s =>
            if s.sid == i then
              { s with name := nm, description := description, definition := df,
                       updated_at := db.now }
            else s) }
      ⟨.ok (retrieve_segment db2 i), db2, [.segmentUpdate i uid rmsg]⟩
  | _, _, _, _, _ => ⟨.error .validationError, db, []⟩

/-- `delete-segment [id user-id]`: `:pre` checks only `integer? id`; then
`db/upd Segment id :is_active false` (soft delete), re-fetch, publish
`:segment-delete` carrying `:actor_id`, return the re-fetched segment. -/
def delete_segment (db : DB) (id : CljVal) (user_id : Int) :
    OpResult (Option SegmentInstance) :=
  match id with
  | .vint i =>
      let db2 : DB :=
        { db with segments := db.segments.map (fun s =>
            if s.sid == i then { s with is_active := false, updated_at := db.now }
            else s) }
      ⟨.ok (retrieve_segment db2 i), db2, [.segmentDelete i user_id]⟩
  | _ => ⟨.error .validationError, db, []⟩

/-- `pre-cascade-delete`: in production throw (the spec's
`OperationNotPermitted`), otherwise `db/cascade-delete revision/Revision
:model "Segment" :model_id id`.  The production/test switch
`config/is-prod?` is the explicit flag `is_prod`. -/
def pre_cascade_delete (is_prod : Bool) (db : DB) (i : Int) : Except SegErr DB :=
  if is_prod then .error .operationNotPermitted
  else .ok { db with revisions :=
    db.revisions.filter (fun r => !(r.model == "Segment" && r.model_id == i)) }

/-- Modelled from the spec: the persistence layer's cascade-delete entry
point (`db/cascade-delete` on a `Segment`, not among the provided sources)
runs the entity's `pre-cascade-delete` hook and then physically removes
the row; when the hook throws, nothing is removed. -/
def cascade_delete_segment (is_prod : Bool) (db : DB) (i : Int) : Except SegErr DB :=
  match pre_cascade_delete is_prod db i with
  | .error e => .error e
  | .ok db1 => .ok { db1 with segments := db1.segments.filter (fun s => !(s.sid == i)) }

/-- The acting caller, as far as `extend-ICanReadWrite` looks at it. -/
structure Caller where
  userId : Int
  is_superuser : Bool
deriving DecidableEq, Repr

/-- `extend-ICanReadWrite SegmentInstance :read :always, ...`: reading is
always allowed. -/
def can_read (_ : Caller) : Bool := true

/-- `extend-ICanReadWrite SegmentInstance ..., :write :superuser`: writing
is allowed exactly for superusers. -/
def can_write (c : Caller) : Bool := c.is_superuser

/-- Modelled from the spec: the Segment Store's permission enforcement
("Enforced by the Segment Store before mutating operations; violation
fails with `PermissionDenied`") lives in the API layer, which is not among
the provided sources; it is modelled as a guard that consults `can_write`
before delegating to `create-segment`. -/
def guarded_create_segment (c : Caller) (db : DB)
    (table_id name description creator_id definition : CljVal) :
    OpResult SegmentInstance :=
  if can_write c then create_segment db table_id name description creator_id definition
  else ⟨.error .permissionDenied, db, []⟩

/-- Modelled from the spec: permission guard around `update-segment`
(see `guarded_create_segment`). -/
def guarded_update_segment (c : Caller) (db : DB)
    (id name description definition revision_message user_id : CljVal) :
    OpResult (Option SegmentInstance) :=
  if can_write c then update_segment db id name description definition revision_message user_id
  else ⟨.error .permissionDenied, db, []⟩

/-- Modelled from the spec: permission guard around `delete-segment`
(see `guarded_create_segment`). -/
def guarded_delete_segment (c : Caller) (db : DB) (id : CljVal) (user_id : Int) :
    OpResult (Option SegmentInstance) :=
  if can_write c then delete_segment db id user_id
  else ⟨.error .permissionDenied, db, []⟩

/-- A field of a `SegmentInstance` record as `serialize-instance` sees it:
either a plain value or an unforced `delay` (identified by a thunk id;
`serialize-instance` only ever asks `delay?`, never derefs). -/
inductive FieldVal where
  | plain : CljVal → FieldVal
  | delayed : Nat → FieldVal
deriving DecidableEq, Repr

/-- Clojure `delay?`. -/
def FieldVal.isDelay : FieldVal → Bool
  | .delayed _ => true
  | .plain _ => false

/-- `serialize-instance`: `(dissoc instance :created_at :updated_at)`, then
`(m/filter-vals (complement delay?))`.  The instance is its field map. -/
def serialize_instance (inst : List (String × FieldVal)) : List (String × FieldVal) :=
  ((inst.filter (fun kv => !(kv.1 == "created_at" || kv.1 == "updated_at"))).filter
    (fun kv => !kv.2.isDelay))

/-! ### Concrete fixtures used by witnesses and counterexamples -/

/-- An empty database with one user (id 7). -/
def db0 : DB := { segments := [], users := [7], revisions := [], nextId := 1, now := 0 }

/-- An active segment row. -/
def segA : SegmentRec :=
  { sid := 1, table_id := 1, creator_id := 7, name := "Active Users",
    description := .vstr "d", definition := [("field", "status")],
    is_active := true, created_at := 0, updated_at := 0 }

/-- A soft-deleted segment row. -/
def segB : SegmentRec :=
  { sid := 2, table_id := 1, creator_id := 7, name := "Churned",
    description := .vnil, definition := [("field", "status")],
    is_active := false, created_at := 0, updated_at := 0 }

/-- A database holding `segA`, `segB`, one revision of the segment and one
unrelated revision. -/
def dbW : DB :=
  { segments := [segA, segB], users := [7],
    revisions := [{ model := "Segment", model_id := 1 },
                  { model := "Dashboard", model_id := 1 }],
    nextId := 3, now := 9 }

/-! ### Helper lemmas -/

/-- `find?` by id commutes with mapping an id-preserving row update. -/
theorem find_sid_map (l : List SegmentRec) (f : SegmentRec → SegmentRec) (i : Int)
    (hf : ∀ s, (f s).sid = s.sid) :
    (l.map f).find? (fun t => t.sid == i) = (l.find? (fun t => t.sid == i)).map f := by
  induction l with
  | nil => rfl
  | cons a l ih =>
    rw [List.map_cons, List.find?_cons, List.find?_cons, hf]
    cases h : (a.sid == i) <;> simp [ih]

/-- Hydration leaves the underlying row untouched. -/
@[simp] theorem hydrateCreator_row (db : DB) (s : SegmentRec) :
    (hydrateCreator db s).row = s := rfl

/-- Re-extracting the rows from hydrated instances gives the rows back. -/
theorem map_row_hydrate (db : DB) (l : List SegmentRec) :
    (l.map (hydrateCreator db)).map SegmentInstance.row = l := by
  induction l with
  | nil => rfl
  | cons a l ih => simp [ih, hydrateCreator]

/-! ### Claims -/

/-- Claim C1: `can_write` holds exactly for callers with the superuser
role, and for every caller lacking it each guarded mutating operation
(create, update, delete) fails with `PermissionDenied`, leaves the
database unchanged and publishes no event. -/
theorem segment_write_requires_superuser (c : Caller) (db : DB)
    (v1 v2 v3 v4 v5 v6 : CljVal) (uid : Int)
    (h : c.is_superuser = false) :
    (∀ c2 : Caller, can_write c2 = true ↔ c2.is_superuser = true)
    ∧ guarded_create_segment c db v1 v2 v3 v4 v5 =
        ⟨.error .permissionDenied, db, []⟩
    ∧ guarded_update_segment c db v1 v2 v3 v4 v5 v6 =
        ⟨.error .permissionDenied, db, []⟩
    ∧ guarded_delete_segment c db v1 uid =
        ⟨.error .permissionDenied, db, []⟩ := by
  refine ⟨fun c2 => Iff.rfl, ?_, ?_, ?_⟩ <;>
    simp [guarded_create_segment, guarded_update_segment, guarded_delete_segment,
      can_write, h]

/-- Witness for C1 at a concrete non-superuser caller. -/
theorem segment_write_requires_superuser_witness :
    guarded_delete_segment ⟨9, false⟩ dbW (.vint 1) 9 =
      ⟨.error .permissionDenied, dbW, []⟩ :=
  (segment_write_requires_superuser ⟨9, false⟩ dbW (.vint 1) (.vstr "n") .vnil
    (.vint 7) (.vmap []) (.vint 9) 9 rfl).2.2.2

/-- Claim C3: cascade deletion in production fails with
`OperationNotPermitted` and is not downgraded to any state change; in a
test context it succeeds, removes the segment row, removes every revision
record of that segment and keeps every other revision record. -/
theorem cascade_delete_prod_policy (db : DB) (i : Int) :
    cascade_delete_segment true db i = .error .operationNotPermitted
    ∧ (∃ db2 : DB, cascade_delete_segment false db i = .ok db2
        ∧ (∀ r ∈ db2.revisions, r.model = "Segment" → r.model_id ≠ i)
        ∧ (∀ r ∈ db.revisions, (r.model = "Segment" → r.model_id ≠ i) → r ∈ db2.revisions)
        ∧ (∀ s ∈ db2.segments, s.sid ≠ i)) := by
  refine ⟨rfl, ⟨_, rfl, ?_, ?_, ?_⟩⟩
  · intro r hr hm hid
    have h2 := (List.mem_filter.mp hr).2
    rw [hm, hid] at h2
    simp at h2
  · intro r hr hmod
    refine List.mem_filter.mpr ⟨hr, ?_⟩
    by_cases hm : r.model = "Segment" <;> simp_all
  · intro s hs
    simpa using (List.mem_filter.mp hs).2

/-- Witness for C3 at a concrete database and id. -/
theorem cascade_delete_prod_policy_witness :
    cascade_delete_segment true dbW 1 = .error .operationNotPermitted :=
  (cascade_delete_prod_policy dbW 1).1

/-- The projection of a segment row to the fields `update-segment` must
not touch. -/
def frameFields (s : SegmentRec) : Int × Int × Int × Bool × Nat :=
  (s.sid, s.table_id, s.creator_id, s.is_active, s.created_at)

/-- Claim C7: an `update-segment` call leaves `id`, `table_id`,
`creator_id`, `is_active` and `created_at` of every row unchanged; only
`name`, `description`, `definition` (and the framework-maintained
`updated_at`) are written. -/
theorem update_segment_frame (db : DB) (i : Int) (nm : String) (d : CljVal)
    (df : List (String × String)) (rm : String) (uid : Int) :
    ((update_segment db (.vint i) (.vstr nm) d (.vmap df) (.vstr rm) (.vint uid)).db).segments.map frameFields
      = db.segments.map frameFields := by
  simp only [update_segment, List.map_map]
  refine List.map_congr_left ?_
  intro s _
  by_cases h : (s.sid == i) = true <;> simp [Function.comp, frameFields, h]

/-- Claim C8: `serialize-instance` keeps exactly the instance's fields
other than `created_at` and `updated_at` whose value is not a delay, and
the surviving pairs are the input pairs themselves (each delay is dropped
by the `delay?` test, never forced). -/
theorem serialize_instance_spec (inst : List (String × FieldVal)) :
    ∀ kv : String × FieldVal, kv ∈ serialize_instance inst ↔
      (kv ∈ inst ∧ kv.1 ≠ "created_at" ∧ kv.1 ≠ "updated_at" ∧ kv.2.isDelay = false) := by
  intro kv
  simp only [serialize_instance, List.mem_filter]
  constructor
  · rintro ⟨⟨hin, hts⟩, hdel⟩
    simp_all
  · rintro ⟨hin, h1, h2, h3⟩
    simp_all

/-- A record map with a plain field, a delayed creator and a timestamp. -/
def instW : List (String × FieldVal) :=
  [("id", .plain (.vint 1)), ("creator", .delayed 0), ("created_at", .plain (.vint 3))]

/-- Witness for C8 on `instW`: the plain field survives, the delayed
creator does not. -/
theorem serialize_instance_spec_witness :
    ("id", FieldVal.plain (CljVal.vint 1)) ∈ serialize_instance instW
    ∧ ("creator", FieldVal.delayed 0) ∉ serialize_instance instW :=
  ⟨(serialize_instance_spec instW ("id", FieldVal.plain (CljVal.vint 1))).mpr
      ⟨by decide, by decide, by decide, by decide⟩,
   fun hmem =>
    absurd ((serialize_instance_spec instW ("creator", FieldVal.delayed 0)).mp hmem).2.2.2
      (by decide)⟩

/-- Claim C10: every state keyword other than `:active` and `:all` (for
example `:foo`) filters to inactive segments, exactly like `:deleted`,
rather than failing. -/
theorem retrieve_segments_unknown_state (db : DB) (tid : Int) (state : String)
    (h1 : state ≠ "active") (h2 : state ≠ "all") :
    retrieve_segments_state db tid state = retrieve_segments_state db tid "deleted" := by
  simp [retrieve_segments_state, h1, h2]

/-- Witness for C10 at the undocumented keyword `:foo`. -/
theorem retrieve_segments_unknown_state_witness :
    retrieve_segments_state dbW 1 "foo" = retrieve_segments_state dbW 1 "deleted" :=
  retrieve_segments_unknown_state dbW 1 "foo" (by decide) (by decide)

/-- Claim C2 counterexample: `create-segment` with an empty-string name is
accepted — `string? ""` holds, so on this concrete database the call does
not fail with ValidationError (against the claim, which says it must). -/
theorem create_empty_name_accepted :
    (create_segment db0 (.vint 1) (.vstr "") .vnil (.vint 7) (.vmap [])).res
      ≠ Except.error SegErr.validationError := by decide

/-- Claim C2 amended: `create-segment` fails with ValidationError —
changing no state and publishing no event — exactly when tableId or
creatorId is not an integer, name is not a string (an empty string is a
string and is accepted), or definition is not a map; when all four checks
pass the call returns a segment. -/
theorem create_segment_validation (db : DB) (tid nm d cid df : CljVal) :
    (¬(tid.isInteger = true ∧ nm.isString = true ∧ cid.isInteger = true ∧ df.isMap = true) →
        create_segment db tid nm d cid df = ⟨.error .validationError, db, []⟩)
    ∧ ((tid.isInteger = true ∧ nm.isString = true ∧ cid.isInteger = true ∧ df.isMap = true) →
        ∃ seg : SegmentInstance, (create_segment db tid nm d cid df).res = .ok seg) := by
  constructor
  · intro h
    cases tid <;> cases nm <;> cases cid <;> cases df <;>
      first
        | rfl
        | exact absurd ⟨rfl, rfl, rfl, rfl⟩ h
  · rintro ⟨h1, h2, h3, h4⟩
    obtain ⟨x1, rfl⟩ : ∃ x, tid = CljVal.vint x := by
      cases tid <;> simp_all [CljVal.isInteger]
    obtain ⟨x2, rfl⟩ : ∃ x, nm = CljVal.vstr x := by
      cases nm <;> simp_all [CljVal.isString]
    obtain ⟨x3, rfl⟩ : ∃ x, cid = CljVal.vint x := by
      cases cid <;> simp_all [CljVal.isInteger]
    obtain ⟨x4, rfl⟩ : ∃ x, df = CljVal.vmap x := by
      cases df <;> simp_all [CljVal.isMap]
    exact ⟨_, rfl⟩

/-- Witness for C2 (amended) at a concrete invalid input: a keyword
table-id fails the `integer?` check. -/
theorem create_segment_validation_witness :
    create_segment db0 (.vkw "t") (.vstr "n") .vnil (.vint 7) (.vmap []) =
      ⟨.error .validationError, db0, []⟩ :=
  (create_segment_validation db0 (.vkw "t") (.vstr "n") .vnil (.vint 7) (.vmap [])).1
    (by decide)

/-- Claim C6 counterexample: `update-segment` with revision_message `""`
is accepted — `string? ""` holds, so on this concrete database the call
does not fail with ValidationError (against the claim, which says every
empty revisionMessage must fail). -/
theorem update_empty_revision_message_accepted :
    (update_segment dbW (.vint 1) (.vstr "Active Users v2") (.vstr "d")
      (.vmap [("field", "status")]) (.vstr "") (.vint 7)).res
      ≠ Except.error SegErr.validationError := by decide

/-- Claim C6 amended: `update-segment` fails with ValidationError —
changing no state and publishing no event — exactly when id or the acting
user id is not an integer, name is not a string, definition is not a map,
or revisionMessage is not a string; an empty revisionMessage string is
accepted, and when all checks pass the call goes through. -/
theorem update_segment_validation (db : DB) (id nm d df rm uid : CljVal) :
    (¬(id.isInteger = true ∧ nm.isString = true ∧ df.isMap = true
        ∧ uid.isInteger = true ∧ rm.isString = true) →
        update_segment db id nm d df rm uid = ⟨.error .validationError, db, []⟩)
    ∧ ((id.isInteger = true ∧ nm.isString = true ∧ df.isMap = true
        ∧ uid.isInteger = true ∧ rm.isString = true) →
        ∃ o : Option SegmentInstance, (update_segment db id nm d df rm uid).res = .ok o) := by
  constructor
  · intro h
    cases id <;> cases nm <;> cases df <;> cases rm <;> cases uid <;>
      first
        | rfl
        | exact absurd ⟨rfl, rfl, rfl, rfl, rfl⟩ h
  · rintro ⟨h1, h2, h3, h4, h5⟩
    obtain ⟨x1, rfl⟩ : ∃ x, id = CljVal.vint x := by
      cases id <;> simp_all [CljVal.isInteger]
    obtain ⟨x2, rfl⟩ : ∃ x, nm = CljVal.vstr x := by
      cases nm <;> simp_all [CljVal.isString]
    obtain ⟨x3, rfl⟩ : ∃ x, df = CljVal.vmap x := by
      cases df <;> simp_all [CljVal.isMap]
    obtain ⟨x4, rfl⟩ : ∃ x, uid = CljVal.vint x := by
      cases uid <;> simp_all [CljVal.isInteger]
    obtain ⟨x5, rfl⟩ : ∃ x, rm = CljVal.vstr x := by
      cases rm <;> simp_all [CljVal.isString]
    exact ⟨_, rfl⟩

/-- Witness for C6 (amended) at a concrete invalid input: a nil
revision_message fails the `string?` check. -/
theorem update_segment_validation_witness :
    update_segment dbW (.vint 1) (.vstr "n") .vnil (.vmap []) .vnil (.vint 7) =
      ⟨.error .validationError, dbW, []⟩ :=
  (update_segment_validation dbW (.vint 1) (.vstr "n") .vnil (.vmap []) .vnil (.vint 7)).1
    (by decide)

/-- Claim C4: with valid inputs, a fresh id and an existing creator user,
`create-segment` followed by `retrieve-segment` of the new id returns a
segment that is active, whose fields equal the values passed to create,
and whose creator reference resolves. -/
theorem create_then_retrieve (db : DB) (tid cid : Int) (nm : String) (d : CljVal)
    (df : List (String × String))
    (hfresh : ∀ s ∈ db.segments, s.sid ≠ db.nextId)
    (huser : cid ∈ db.users) :
    ∃ seg : SegmentInstance,
      (create_segment db (.vint tid) (.vstr nm) d (.vint cid) (.vmap df)).res = .ok seg
      ∧ retrieve_segment (create_segment db (.vint tid) (.vstr nm) d (.vint cid) (.vmap df)).db
          seg.row.sid = some seg
      ∧ seg.row.is_active = true ∧ seg.row.table_id = tid ∧ seg.row.creator_id = cid
      ∧ seg.row.name = nm ∧ seg.row.description = d ∧ seg.row.definition = df
      ∧ seg.creator = some cid := by
  have hnone : db.segments.find? (fun s => s.sid == db.nextId) = none :=
    List.find?_eq_none.mpr (fun x hx => by simpa using hfresh x hx)
  refine ⟨_, rfl, ?_, rfl, rfl, rfl, rfl, rfl, rfl, ?_⟩
  · simp only [create_segment, retrieve_segment, List.find?_append, hnone,
      Option.none_or, List.find?_singleton]
    simp [hydrateCreator]
    exact ⟨_, Or.inr ⟨fun x hx => hfresh x hx, rfl⟩, rfl, rfl⟩
  · simp [create_segment, hydrateCreator, huser]

/-- Witness for C4 on the empty database `db0` with creator user 7. -/
theorem create_then_retrieve_witness :
    ∃ seg : SegmentInstance,
      (create_segment db0 (.vint 1) (.vstr "Active Users") .vnil (.vint 7)
        (.vmap [("field", "status")])).res = .ok seg
      ∧ retrieve_segment (create_segment db0 (.vint 1) (.vstr "Active Users") .vnil (.vint 7)
          (.vmap [("field", "status")])).db seg.row.sid = some seg
      ∧ seg.row.is_active = true ∧ seg.row.table_id = 1 ∧ seg.row.creator_id = 7
      ∧ seg.row.name = "Active Users" ∧ seg.row.description = .vnil
      ∧ seg.row.definition = [("field", "status")]
      ∧ seg.creator = some 7 :=
  create_then_retrieve db0 1 7 "Active Users" .vnil [("field", "status")]
    (by decide) (by decide)

/-- Claim C9: soft delete is not an enforced terminal state.  On a segment
whose row is already inactive, `delete-segment` succeeds again, publishes
another `segment-delete` event and returns the (still inactive) record,
and `update-segment` succeeds and mutates the record. -/
theorem soft_delete_not_terminal (db : DB) (i uid : Int) (s : SegmentRec)
    (hfind : db.segments.find? (fun t => t.sid == i) = some s)
    (hinactive : s.is_active = false)
    (nm rm : String) (d : CljVal) (df : List (String × String)) :
    (∃ seg : SegmentInstance,
        (delete_segment db (.vint i) uid).res = .ok (some seg)
        ∧ seg.row.is_active = false)
    ∧ (delete_segment db (.vint i) uid).events = [.segmentDelete i uid]
    ∧ (∃ seg : SegmentInstance,
        (update_segment db (.vint i) (.vstr nm) d (.vmap df) (.vstr rm) (.vint uid)).res
          = .ok (some seg)
        ∧ seg.row.name = nm ∧ seg.row.definition = df ∧ seg.row.is_active = false)
    ∧ (update_segment db (.vint i) (.vstr nm) d (.vmap df) (.vstr rm) (.vint uid)).events
        = [.segmentUpdate i uid rm] := by
  have hsid : (s.sid == i) = true :=
    List.find?_some (p := fun t : SegmentRec => t.sid == i) hfind
  have hfdel := find_sid_map db.segments
      (fun t => if t.sid == i then { t with is_active := false, updated_at := db.now } else t) i
      (fun t => by by_cases h : (t.sid == i) = true <;> simp [h])
  have hfupd := find_sid_map db.segments
      (fun t => if t.sid == i then
          { t with name := nm, description := d, definition := df, updated_at := db.now }
        else t) i
      (fun t => by by_cases h : (t.sid == i) = true <;> simp [h])
  refine ⟨⟨hydrateCreator
      { db with segments := db.segments.map (fun t =>
          if t.sid == i then { t with is_active := false, updated_at := db.now } else t) }
      { s with is_active := false, updated_at := db.now }, ?_, rfl⟩, rfl,
    ⟨hydrateCreator
      { db with segments := db.segments.map (fun t =>
          if t.sid == i then
            { t with name := nm, description := d, definition := df, updated_at := db.now }
          else t) }
      { s with name := nm, description := d, definition := df, updated_at := db.now },
      ?_, rfl, rfl, hinactive⟩, rfl⟩
  · simp only [delete_segment, retrieve_segment]
    rw [hfdel, hfind, Option.map_some', Option.map_some']
    simp [hsid]
  · simp only [update_segment, retrieve_segment]
    rw [hfupd, hfind, Option.map_some', Option.map_some']
    simp [hsid]

/-- Witness for C9 on the already-inactive `segB` of `dbW`. -/
theorem soft_delete_not_terminal_witness :
    (∃ seg : SegmentInstance,
        (delete_segment dbW (.vint 2) 7).res = .ok (some seg)
        ∧ seg.row.is_active = false)
    ∧ (delete_segment dbW (.vint 2) 7).events = [.segmentDelete 2 7]
    ∧ (∃ seg : SegmentInstance,
        (update_segment dbW (.vint 2) (.vstr "n2") .vnil (.vmap []) (.vstr "m") (.vint 7)).res
          = .ok (some seg)
        ∧ seg.row.name = "n2" ∧ seg.row.definition = [] ∧ seg.row.is_active = false)
    ∧ (update_segment dbW (.vint 2) (.vstr "n2") .vnil (.vmap []) (.vstr "m") (.vint 7)).events
        = [.segmentUpdate 2 7 "m"] :=
  soft_delete_not_terminal dbW 2 7 segB (by decide) (by decide) "n2" "m" .vnil []

/-- Claim C5: `retrieve-segments` returns exactly the segments of the
given table whose active flag matches the requested state (active rows
for `:active`, which is also the no-argument default; inactive rows for
`:deleted`; all rows for `:all`), ordered by name ascending, each
hydrated with its creator. -/
theorem retrieve_segments_spec (db : DB) (tid : Int) :
    (∀ r : SegmentRec, r ∈ (retrieve_segments_state db tid "active").map SegmentInstance.row
        ↔ r ∈ db.segments ∧ r.table_id = tid ∧ r.is_active = true)
    ∧ (∀ r : SegmentRec, r ∈ (retrieve_segments_state db tid "deleted").map SegmentInstance.row
        ↔ r ∈ db.segments ∧ r.table_id = tid ∧ r.is_active = false)
    ∧ (∀ r : SegmentRec, r ∈ (retrieve_segments_state db tid "all").map SegmentInstance.row
        ↔ r ∈ db.segments ∧ r.table_id = tid)
    ∧ (∀ state : String,
        List.Sorted nameLE ((retrieve_segments_state db tid state).map SegmentInstance.row))
    ∧ (∀ (state : String) (seg : SegmentInstance),
        seg ∈ retrieve_segments_state db tid state → seg = hydrateCreator db seg.row)
    ∧ retrieve_segments db tid = retrieve_segments_state db tid "active" := by
  refine ⟨?_, ?_, ?_, ?_, ?_, rfl⟩
  · intro r
    simp [retrieve_segments_state, List.mem_filter, and_assoc]
    constructor
    · rintro ⟨a, ha, h1, h2, rfl⟩
      exact ⟨ha, h1, h2⟩
    · rintro ⟨hr, h1, h2⟩
      exact ⟨r, hr, h1, h2, rfl⟩
  · intro r
    simp [retrieve_segments_state, List.mem_filter, and_assoc]
    constructor
    · rintro ⟨a, ha, h1, h2, rfl⟩
      exact ⟨ha, h1, h2⟩
    · rintro ⟨hr, h1, h2⟩
      exact ⟨r, hr, h1, h2, rfl⟩
  · intro r
    simp [retrieve_segments_state, List.mem_filter]
  · intro state
    simp only [retrieve_segments_state, map_row_hydrate]
    exact List.sorted_insertionSort nameLE _
  · intro state seg hmem
    simp only [retrieve_segments_state, List.mem_map] at hmem
    obtain ⟨r, hr, rfl⟩ := hmem
    rfl

/-- Witness for C5 on `dbW`: the active row `segA` is listed for state
`:active` and is returned hydrated. -/
theorem retrieve_segments_spec_witness :
    segA ∈ (retrieve_segments_state dbW 1 "active").map SegmentInstance.row
    ∧ hydrateCreator dbW segA ∈ retrieve_segments_state dbW 1 "active"
    ∧ hydrateCreator dbW segA = hydrateCreator dbW (hydrateCreator dbW segA).row :=
  ⟨((retrieve_segments_spec dbW 1).1 segA).mpr ⟨by decide, by decide, by decide⟩,
   by decide,
   (retrieve_segments_spec dbW 1).2.2.2.2.1 "active" (hydrateCreator dbW segA) (by decide)⟩
